import Mathlib

/-!
Verification of the caching and freshness layer of sportspuff-v6.

Shallow embedding of:
- the hot response cache of `app.py` (`_api_cache`, `_cache_ttl`,
  `get_cached_response`, `set_cached_response`);
- the `/api/proxy/scores/<league>/<date>` handler `proxy_scores` of `app.py`
  (cache-key normalization for "today", the initial cache check, the upstream
  fetch outcome dispatch, and the stale-fallback branches);
- the cache warmer of `warm_cache.py`;
- the season-type classifier `detect_season_type` of
  `nba_schedule_collector.py` (identical in `nba-samples/`);
- the persistent game table writer `CacheManager.cache_games` of
  `nba-samples/cache_manager.py`.

Time is modelled as seconds since the UTC epoch (`Nat`); elapsed-time
comparisons are done in `Int`, matching Python's signed float arithmetic.
The UTC calendar date of an instant `t` is its day number `t / 86400`;
Python's `strftime('%Y-%m-%d')` is modelled by `dateStr`, a decimal
rendering of the day number.  The code only ever compares these date
strings for equality, and like `%Y-%m-%d` the rendering is injective,
which is proved below (`dateStr_injective`).
-/

namespace Sportspuff

/-! ### Decimal rendering of day numbers (model of strftime dates) -/

/-- Big-endian decimal digits of `n`, computed with explicit fuel so that the
definition is structurally recursive.  With fuel `f ≥ n` this is the usual
decimal rendering (`0` renders as the empty list). -/
def digitsOf : Nat → Nat → List Char
  | 0, _ => []
  | f + 1, n => if n = 0 then [] else digitsOf f (n / 10) ++ [Nat.digitChar (n % 10)]

/-- Model of Python's `datetime.now(timezone.utc).strftime('%Y-%m-%d')`:
an injective decimal rendering of the UTC day number `d = t / 86400`. -/
def dateStr (d : Nat) : String := ⟨digitsOf d d⟩

/-- Value of a big-endian decimal digit list, with accumulator. -/
def valAcc : Nat → List Char → Nat
  | a, [] => a
  | a, c :: rest => valAcc (a * 10 + (c.toNat - 48)) rest

theorem valAcc_nil (a : Nat) : valAcc a [] = a := rfl

theorem valAcc_cons (a : Nat) (c : Char) (rest : List Char) :
    valAcc a (c :: rest) = valAcc (a * 10 + (c.toNat - 48)) rest := rfl

theorem valAcc_append (a : Nat) (l1 l2 : List Char) :
    valAcc a (l1 ++ l2) = valAcc (valAcc a l1) l2 := by
  induction l1 generalizing a with
  | nil => rfl
  | cons c rest ih => rw [List.cons_append, valAcc_cons, valAcc_cons, ih]

theorem digitsOf_zero (n : Nat) : digitsOf 0 n = [] := rfl

theorem digitsOf_succ (f n : Nat) :
    digitsOf (f + 1) n =
      if n = 0 then [] else digitsOf f (n / 10) ++ [Nat.digitChar (n % 10)] := rfl

theorem digitChar_val (k : Nat) (hk : k < 10) : (Nat.digitChar k).toNat - 48 = k := by
  interval_cases k <;> decide

theorem valAcc_digitsOf : ∀ (f n a : Nat), n ≤ f →
    valAcc a (digitsOf f n) = a * 10 ^ (digitsOf f n).length + n := by
  intro f
  induction f with
  | zero =>
    intro n a hn
    interval_cases n
    rw [digitsOf_zero, valAcc_nil]
    simp
  | succ f ih =>
    intro n a hn
    by_cases h0 : n = 0
    · subst h0
      rw [digitsOf_succ]
      simp [valAcc_nil]
    · have hdiv : n / 10 ≤ f := by
        have := Nat.div_lt_self (Nat.pos_of_ne_zero h0) (by norm_num : 1 < 10)
        omega
      rw [digitsOf_succ, if_neg h0, valAcc_append, ih (n / 10) a hdiv, valAcc_cons,
        valAcc_nil, digitChar_val (n % 10) (Nat.mod_lt n (by norm_num))]
      have hlen : (digitsOf f (n / 10) ++ [Nat.digitChar (n % 10)]).length
          = (digitsOf f (n / 10)).length + 1 := by simp
      rw [hlen, pow_succ, ← mul_assoc]
      generalize a * 10 ^ (digitsOf f (n / 10)).length = M
      omega

theorem dateStr_injective : Function.Injective dateStr := by
  intro a b hab
  have hdata : digitsOf a a = digitsOf b b := congrArg String.data hab
  have ha := valAcc_digitsOf a a 0 (le_refl a)
  have hb := valAcc_digitsOf b b 0 (le_refl b)
  rw [hdata] at ha
  omega

/-! ### The hot response cache (`app.py` lines 27-48)

Python source:

    _api_cache = {}
    _cache_ttl = { 'schedule': 300, 'scores': 30 }

    def get_cached_response(cache_key, cache_type):
        if cache_key in _api_cache:
            cached_data, timestamp = _api_cache[cache_key]
            ttl = _cache_ttl.get(cache_type, 60)
            if (datetime.now(timezone.utc) - timestamp).total_seconds() < ttl:
                return cached_data
        return None

    def set_cached_response(cache_key, data):
        _api_cache[cache_key] = (data, datetime.now(timezone.utc))
        if len(_api_cache) > 100:
            oldest_key = min(_api_cache.keys(), key=lambda k: _api_cache[k][1])
            del _api_cache[oldest_key]

The dict is modelled as a list of entries in insertion order with (invariant)
pairwise-distinct keys; overwriting keeps the entry position, a new key is
appended, matching CPython dict semantics.  `min` keeps the first minimum. -/

/-- A cached payload: the JSON body returned by the upstream scores API.
The proxy only ever inspects its `date` field (`cached_response.get('date', '')`);
the rest of the body is opaque (`body`). -/
structure Payload where
  date : String
  body : Nat
deriving DecidableEq, Repr

/-- One entry of `_api_cache`: key maps to `(payload, capture timestamp)`. -/
structure Entry where
  key : String
  payload : Payload
  capturedAt : Nat
deriving DecidableEq, Repr

/-- `_api_cache`, in dict insertion order. -/
abbrev Cache := List Entry

/-- The keys of the cache, in order. -/
def keys (c : Cache) : List String := c.map Entry.key

/-- `cache_key in _api_cache` plus `_api_cache[cache_key]`. -/
def lookupKey : Cache → String → Option (Payload × Nat)
  | [], _ => none
  | e :: rest, k => if e.key = k then some (e.payload, e.capturedAt) else lookupKey rest k

/-- `_cache_ttl.get(cache_type, 60)`: 300 s for schedules, 30 s for scores,
default 60 s. -/
def cache_ttl (cache_type : String) : Int :=
  if cache_type = "schedule" then 300
  else if cache_type = "scores" then 30
  else 60

/-- `get_cached_response(cache_key, cache_type)` at instant `now`. -/
def get_cached_response (c : Cache) (cache_key cache_type : String) (now : Nat) :
    Option Payload :=
  match lookupKey c cache_key with
  | none => none
  | some (data, ts) => if (now : Int) - (ts : Int) < cache_ttl cache_type then some data else none

/-- `_api_cache[cache_key] = (data, now)`: overwrite in place, or append a new
key, as a CPython dict does. -/
def insertOrReplace : Cache → String → Payload → Nat → Cache
  | [], k, v, t => [⟨k, v, t⟩]
  | e :: rest, k, v, t =>
    if e.key = k then ⟨k, v, t⟩ :: rest else e :: insertOrReplace rest k v t

/-- Running minimum by `capturedAt`; Python's `min` keeps the first minimum,
so a later entry replaces the current best only when strictly smaller. -/
def oldestAcc : Entry → Cache → Entry
  | m, [] => m
  | m, e :: rest => oldestAcc (if e.capturedAt < m.capturedAt then e else m) rest

/-- `min(_api_cache.keys(), key=lambda k: _api_cache[k][1])`, as the full entry. -/
def oldestEntry : Cache → Option Entry
  | [] => none
  | e :: rest => some (oldestAcc e rest)

/-- `del _api_cache[k]`: removes the (unique) entry with key `k`. -/
def removeKey : Cache → String → Cache
  | [], _ => []
  | e :: rest, k => if e.key = k then rest else e :: removeKey rest k

/-- `set_cached_response(cache_key, data)` at instant `now`. -/
def set_cached_response (c : Cache) (cache_key : String) (data : Payload) (now : Nat) :
    Cache :=
  let inserted := insertOrReplace c cache_key data now
  if 100 < inserted.length then
    match oldestEntry inserted with
    | some m => removeKey inserted m.key
    | none => inserted
  else inserted

/-! ### Basic lemmas about the cache operations -/

theorem lookupKey_nil (k : String) : lookupKey [] k = none := rfl

theorem lookupKey_cons (e : Entry) (rest : Cache) (k : String) :
    lookupKey (e :: rest) k =
      if e.key = k then some (e.payload, e.capturedAt) else lookupKey rest k := rfl

theorem insertOrReplace_nil (k : String) (v : Payload) (t : Nat) :
    insertOrReplace [] k v t = [⟨k, v, t⟩] := rfl

theorem insertOrReplace_cons (e : Entry) (rest : Cache) (k : String) (v : Payload) (t : Nat) :
    insertOrReplace (e :: rest) k v t =
      if e.key = k then ⟨k, v, t⟩ :: rest else e :: insertOrReplace rest k v t := rfl

theorem removeKey_nil (k : String) : removeKey [] k = [] := rfl

theorem removeKey_cons (e : Entry) (rest : Cache) (k : String) :
    removeKey (e :: rest) k = if e.key = k then rest else e :: removeKey rest k := rfl

theorem oldestAcc_nil (m : Entry) : oldestAcc m [] = m := rfl

theorem oldestAcc_cons (m e : Entry) (rest : Cache) :
    oldestAcc m (e :: rest) = oldestAcc (if e.capturedAt < m.capturedAt then e else m) rest := rfl

theorem lookupKey_insertOrReplace_self (c : Cache) (k : String) (v : Payload) (t : Nat) :
    lookupKey (insertOrReplace c k v t) k = some (v, t) := by
  induction c with
  | nil => simp [insertOrReplace_nil, lookupKey_cons]
  | cons e rest ih =>
    rw [insertOrReplace_cons]
    by_cases h : e.key = k
    · simp [h, lookupKey_cons]
    · simp [h, lookupKey_cons, ih]

theorem keys_cons (e : Entry) (rest : Cache) : keys (e :: rest) = e.key :: keys rest := rfl

theorem insertOrReplace_length_of_mem (c : Cache) (k : String) (v : Payload) (t : Nat)
    (h : k ∈ keys c) : (insertOrReplace c k v t).length = c.length := by
  induction c with
  | nil => cases h
  | cons e rest ih =>
    rw [insertOrReplace_cons]
    by_cases he : e.key = k
    · simp [he]
    · have hr : k ∈ keys rest := by
        rw [keys_cons] at h
        rcases List.mem_cons.mp h with h1 | h1
        · exact absurd h1.symm he
        · exact h1
      simp [he, ih hr]

theorem insertOrReplace_of_not_mem (c : Cache) (k : String) (v : Payload) (t : Nat)
    (h : k ∉ keys c) : insertOrReplace c k v t = c ++ [⟨k, v, t⟩] := by
  induction c with
  | nil => rfl
  | cons e rest ih =>
    have he : ¬ e.key = k := by
      intro hk
      exact h (by rw [keys_cons, hk]; exact List.mem_cons_self k (keys rest))
    have hr : k ∉ keys rest := by
      intro hk
      exact h (by rw [keys_cons]; exact List.mem_cons_of_mem e.key hk)
    rw [insertOrReplace_cons, if_neg he, ih hr, List.cons_append]

theorem insertOrReplace_length_le (c : Cache) (k : String) (v : Payload) (t : Nat) :
    (insertOrReplace c k v t).length ≤ c.length + 1 := by
  induction c with
  | nil => simp [insertOrReplace_nil]
  | cons e rest ih =>
    rw [insertOrReplace_cons]
    by_cases h : e.key = k
    · rw [if_pos h]
      simp only [List.length_cons]
      omega
    · rw [if_neg h]
      simp only [List.length_cons]
      omega

theorem oldestAcc_mem (m : Entry) (l : Cache) : oldestAcc m l ∈ m :: l := by
  induction l generalizing m with
  | nil => simp [oldestAcc_nil]
  | cons e rest ih =>
    rw [oldestAcc_cons]
    by_cases hc : e.capturedAt < m.capturedAt
    · rw [if_pos hc]
      have h := ih e
      simp only [List.mem_cons] at h ⊢
      tauto
    · rw [if_neg hc]
      have h := ih m
      simp only [List.mem_cons] at h ⊢
      tauto

theorem oldestAcc_le (m : Entry) (l : Cache) :
    ∀ e ∈ m :: l, (oldestAcc m l).capturedAt ≤ e.capturedAt := by
  induction l generalizing m with
  | nil =>
    intro e he
    rw [oldestAcc_nil]
    rcases List.mem_cons.mp he with h | h
    · rw [h]
    · simp at h
  | cons x rest ih =>
    intro e he
    rw [oldestAcc_cons]
    by_cases hc : x.capturedAt < m.capturedAt
    · rw [if_pos hc]
      rcases List.mem_cons.mp he with h | h
      · have hx := ih x x (List.mem_cons_self x rest)
        rw [h]
        omega
      · rcases List.mem_cons.mp h with h2 | h2
        · rw [h2]
          exact ih x x (List.mem_cons_self x rest)
        · exact ih x e (List.mem_cons_of_mem x h2)
    · rw [if_neg hc]
      rcases List.mem_cons.mp he with h | h
      · rw [h]
        exact ih m m (List.mem_cons_self m rest)
      · rcases List.mem_cons.mp h with h2 | h2
        · have hm := ih m m (List.mem_cons_self m rest)
          rw [h2]
          omega
        · exact ih m e (List.mem_cons_of_mem m h2)

theorem oldestAcc_append_one (m a : Entry) (l : Cache)
    (h : (oldestAcc m l).capturedAt ≤ a.capturedAt) :
    oldestAcc m (l ++ [a]) = oldestAcc m l := by
  induction l generalizing m with
  | nil =>
    rw [oldestAcc_nil] at h ⊢
    simp only [List.nil_append, oldestAcc_cons, oldestAcc_nil]
    rw [if_neg (by omega)]
  | cons e rest ih =>
    rw [oldestAcc_cons] at h ⊢
    exact ih _ h

theorem removeKey_length_of_mem (c : Cache) (k : String)
    (h : ∃ e ∈ c, e.key = k) : (removeKey c k).length + 1 = c.length := by
  induction c with
  | nil => simp at h
  | cons e rest ih =>
    rw [removeKey_cons]
    by_cases he : e.key = k
    · simp [he]
    · rcases h with ⟨x, hx, hxk⟩
      rcases List.mem_cons.mp hx with h1 | h1
      · exact absurd (h1 ▸ hxk) he
      · simp only [if_neg he, List.length_cons]
        rw [ih ⟨x, h1, hxk⟩]

theorem lookupKey_removeKey_ne (c : Cache) (kk k : String) (h : kk ≠ k) :
    lookupKey (removeKey c kk) k = lookupKey c k := by
  induction c with
  | nil => rfl
  | cons e rest ih =>
    rw [removeKey_cons]
    by_cases he : e.key = kk
    · have hek : ¬ e.key = k := fun hk => h (hk ▸ he ▸ rfl)
      rw [if_pos he, lookupKey_cons, if_neg hek]
    · rw [if_neg he, lookupKey_cons, lookupKey_cons, ih]

theorem oldestEntry_mem (l : Cache) (m : Entry) (h : oldestEntry l = some m) : m ∈ l := by
  cases l with
  | nil => simp [oldestEntry] at h
  | cons e rest =>
    have hm : m = oldestAcc e rest := by
      have hrfl : oldestEntry (e :: rest) = some (oldestAcc e rest) := rfl
      rw [hrfl] at h
      exact (Option.some.inj h).symm
    rw [hm]
    exact oldestAcc_mem e rest

theorem oldestEntry_le (l : Cache) (m : Entry) (h : oldestEntry l = some m) :
    ∀ e ∈ l, m.capturedAt ≤ e.capturedAt := by
  cases l with
  | nil => simp [oldestEntry] at h
  | cons x rest =>
    have hm : m = oldestAcc x rest := by
      have hrfl : oldestEntry (x :: rest) = some (oldestAcc x rest) := rfl
      rw [hrfl] at h
      exact (Option.some.inj h).symm
    intro e he
    rw [hm]
    exact oldestAcc_le x rest e he

theorem set_cached_response_length_le (c : Cache) (k : String) (v : Payload) (t : Nat)
    (h : c.length ≤ 100) : (set_cached_response c k v t).length ≤ 100 := by
  have hle := insertOrReplace_length_le c k v t
  by_cases hbig : 100 < (insertOrReplace c k v t).length
  · simp only [set_cached_response, if_pos hbig]
    split
    · rename_i m hoe
      have hmem := oldestEntry_mem _ m hoe
      have hrem := removeKey_length_of_mem (insertOrReplace c k v t) m.key ⟨m, hmem, rfl⟩
      omega
    · rename_i hoe
      have hnil : insertOrReplace c k v t = [] := by
        cases hx : insertOrReplace c k v t with
        | nil => rfl
        | cons a b =>
          rw [hx] at hoe
          simp [oldestEntry] at hoe
      rw [hnil] at hbig
      simp at hbig
  · simp only [set_cached_response, if_neg hbig]
    omega

/-- C3: starting from the empty cache, any sequence of `put`s leaves at most
100 entries after each step; and a `put` of a fresh key into a full cache
evicts exactly one entry, one with the oldest `capturedAt` (eviction is by
capture time; the cache records no access times at all). -/
theorem cache_bound_and_eviction :
    (∀ ops : List (String × Payload × Nat),
        (ops.foldl (fun c op => set_cached_response c op.1 op.2.1 op.2.2)
          ([] : Cache)).length ≤ 100)
    ∧ (∀ (c : Cache) (k : String) (v : Payload) (t : Nat),
        k ∉ keys c → c.length = 100 → (∀ e ∈ c, e.capturedAt ≤ t) →
        ∃ m, oldestEntry (insertOrReplace c k v t) = some m ∧ m ∈ c ∧
          (∀ e ∈ insertOrReplace c k v t, m.capturedAt ≤ e.capturedAt) ∧
          set_cached_response c k v t = removeKey (insertOrReplace c k v t) m.key ∧
          (set_cached_response c k v t).length = 100) := by
  constructor
  · have step : ∀ (ops : List (String × Payload × Nat)) (c : Cache), c.length ≤ 100 →
        (ops.foldl (fun c op => set_cached_response c op.1 op.2.1 op.2.2) c).length ≤ 100 := by
      intro ops
      induction ops with
      | nil => intro c h; simpa using h
      | cons op rest ih =>
        intro c h
        exact ih _ (set_cached_response_length_le c op.1 op.2.1 op.2.2 h)
    exact fun ops => step ops [] (by simp)
  · intro c k v t hmem hlen hmono
    have happ := insertOrReplace_of_not_mem c k v t hmem
    have hlen2 : (insertOrReplace c k v t).length = c.length + 1 := by
      rw [happ]
      simp
    have hbig : 100 < (insertOrReplace c k v t).length := by omega
    obtain ⟨e0, crest, rfl⟩ : ∃ e0 crest, c = e0 :: crest := by
      cases c with
      | nil => simp at hlen
      | cons e0 crest => exact ⟨e0, crest, rfl⟩
    have hoe : oldestEntry (insertOrReplace (e0 :: crest) k v t)
        = some (oldestAcc e0 crest) := by
      rw [happ, List.cons_append]
      show some (oldestAcc e0 (crest ++ [⟨k, v, t⟩])) = _
      rw [oldestAcc_append_one]
      exact hmono _ (oldestAcc_mem e0 crest)
    refine ⟨oldestAcc e0 crest, hoe, oldestAcc_mem e0 crest,
      oldestEntry_le _ _ hoe, ?_, ?_⟩
    · simp only [set_cached_response, if_pos hbig, hoe]
    · simp only [set_cached_response, if_pos hbig, hoe]
      have hrem := removeKey_length_of_mem (insertOrReplace (e0 :: crest) k v t)
        (oldestAcc e0 crest).key ⟨oldestAcc e0 crest, oldestEntry_mem _ _ hoe, rfl⟩
      omega

/-- A concrete full cache with 100 distinct keys, capture times 0..99. -/
def bigCache : Cache := (List.range 100).map (fun i => ⟨toString i, ⟨"", 0⟩, i⟩)

theorem cache_bound_and_eviction_witness :
    "newkey" ∉ keys bigCache ∧ bigCache.length = 100 ∧
    (∀ e ∈ bigCache, e.capturedAt ≤ 1000) ∧
    (∃ m, oldestEntry (insertOrReplace bigCache "newkey" ⟨"", 0⟩ 1000) = some m ∧
      m ∈ bigCache ∧
      (∀ e ∈ insertOrReplace bigCache "newkey" ⟨"", 0⟩ 1000,
        m.capturedAt ≤ e.capturedAt) ∧
      set_cached_response bigCache "newkey" ⟨"", 0⟩ 1000
        = removeKey (insertOrReplace bigCache "newkey" ⟨"", 0⟩ 1000) m.key ∧
      (set_cached_response bigCache "newkey" ⟨"", 0⟩ 1000).length = 100) :=
  ⟨by decide, by decide, by decide,
   cache_bound_and_eviction.2 bigCache "newkey" ⟨"", 0⟩ 1000 (by decide) (by decide)
     (by decide)⟩

/-- C8: `get(key, dataKind)` is a miss when there is no entry for the key or
when the age `now - capturedAt` is at least `TTL(dataKind)`; an entry strictly
younger than the TTL is returned (so at age exactly the TTL it is already a
miss). -/
theorem get_cached_response_semantics (c : Cache) (k ct : String) (now : Nat) :
    (lookupKey c k = none → get_cached_response c k ct now = none) ∧
    (∀ (v : Payload) (ts : Nat), lookupKey c k = some (v, ts) →
      (cache_ttl ct ≤ (now : Int) - (ts : Int) → get_cached_response c k ct now = none) ∧
      ((now : Int) - (ts : Int) < cache_ttl ct → get_cached_response c k ct now = some v)) := by
  constructor
  · intro h
    simp [get_cached_response, h]
  · intro v ts h
    constructor
    · intro hage
      simp [get_cached_response, h, if_neg (by omega : ¬ ((now : Int) - (ts : Int) < cache_ttl ct))]
    · intro hage
      simp [get_cached_response, h, if_pos hage]

theorem get_cached_response_semantics_witness :
    (get_cached_response [] "k" "scores" 20 = none)
    ∧ (get_cached_response [⟨"k", ⟨"d", 5⟩, 10⟩] "k" "scores" 40 = none)
    ∧ (get_cached_response [⟨"k", ⟨"d", 5⟩, 10⟩] "k" "scores" 39 = some ⟨"d", 5⟩) :=
  ⟨(get_cached_response_semantics [] "k" "scores" 20).1 (by decide),
   ((get_cached_response_semantics [⟨"k", ⟨"d", 5⟩, 10⟩] "k" "scores" 40).2 ⟨"d", 5⟩ 10
      (by decide)).1 (by decide),
   ((get_cached_response_semantics [⟨"k", ⟨"d", 5⟩, 10⟩] "k" "scores" 39).2 ⟨"d", 5⟩ 10
      (by decide)).2 (by decide)⟩

/-- C7: a `get(k, dataKind)` performed immediately after `put(k, v)` (same
instant, so no elapsed time and no calendar-date change) returns exactly `v`,
for any dataKind with a positive TTL.  The hypotheses say the pre-state is one
reachable in a run: at most 100 entries, all captured no later than `t`. -/
theorem get_after_put (c : Cache) (k : String) (v : Payload) (ct : String) (t : Nat)
    (hlen : c.length ≤ 100) (hmono : ∀ e ∈ c, e.capturedAt ≤ t)
    (httl : 0 < cache_ttl ct) :
    get_cached_response (set_cached_response c k v t) k ct t = some v := by
  have hself := lookupKey_insertOrReplace_self c k v t
  by_cases hmem : k ∈ keys c
  · have hlen2 : (insertOrReplace c k v t).length = c.length :=
      insertOrReplace_length_of_mem c k v t hmem
    have hno : ¬ (100 < (insertOrReplace c k v t).length) := by omega
    simp only [set_cached_response, if_neg hno]
    simp [get_cached_response, hself, httl]
  · have happ := insertOrReplace_of_not_mem c k v t hmem
    by_cases hbig : 100 < (insertOrReplace c k v t).length
    · -- eviction is triggered: the cache had exactly 100 entries
      have hlen2 : (insertOrReplace c k v t).length = c.length + 1 := by
        rw [happ]; simp
      have hc100 : c.length = 100 := by omega
      obtain ⟨e0, crest, rfl⟩ : ∃ e0 crest, c = e0 :: crest := by
        cases c with
        | nil => simp at hc100
        | cons e0 crest => exact ⟨e0, crest, rfl⟩
      have hoe : oldestEntry (insertOrReplace (e0 :: crest) k v t)
          = some (oldestAcc e0 crest) := by
        rw [happ, List.cons_append]
        show some (oldestAcc e0 (crest ++ [⟨k, v, t⟩])) = _
        rw [oldestAcc_append_one]
        have hm : oldestAcc e0 crest ∈ e0 :: crest := oldestAcc_mem e0 crest
        exact hmono _ hm
      have hmkeyne : (oldestAcc e0 crest).key ≠ k := by
        intro hk
        apply hmem
        have hm : oldestAcc e0 crest ∈ e0 :: crest := oldestAcc_mem e0 crest
        exact hk ▸ List.mem_map_of_mem Entry.key hm
      simp only [set_cached_response, if_pos hbig, hoe]
      rw [get_cached_response, lookupKey_removeKey_ne _ _ _ hmkeyne, hself]
      simp [httl]
    · simp only [set_cached_response, if_neg hbig]
      simp [get_cached_response, hself, httl]

theorem get_after_put_witness :
    ([(⟨"other", ⟨"d", 1⟩, 3⟩ : Entry)].length ≤ 100)
    ∧ (0 : Int) < cache_ttl "scores"
    ∧ get_cached_response
        (set_cached_response [⟨"other", ⟨"d", 1⟩, 3⟩] "k" ⟨"e", 2⟩ 5) "k" "scores" 5
      = some ⟨"e", 2⟩ :=
  ⟨by decide, by decide,
   get_after_put [⟨"other", ⟨"d", 1⟩, 3⟩] "k" ⟨"e", 2⟩ "scores" 5 (by decide)
     (by decide) (by decide)⟩

/-! ### The scores proxy handler (`app.py` lines 1102-1237, `proxy_scores`)

Key normalization: for `date == 'today'` (case-insensitive) the cache key uses
the real UTC calendar date while `'today'` is sent upstream; otherwise the
literal date is used in both.  Key format: `scores:{league}:{date}:{tz}`.

The single upstream GET either yields parsed JSON data, or fails in one of the
ways below; each failure branch re-checks the saved `cached_response` (the
result of the initial TTL-governed `get_cached_response` call) and serves it
as a degraded fallback only when its `date` field equals the current calendar
date, else returns a structured error.  `now1` is the instant of key
construction and of the initial cache check; `now2` the instant after the
fetch, used by the fallback date re-check and the cache write. -/

/-- Outcome of the single `requests.get` plus response validation in
`proxy_scores`: the failure taxonomy of the upstream fetch. -/
inductive FetchOutcome where
  | ok (data : Payload)
  | timeout
  | requestError (msg : String)
  | httpStatus (code : Nat) (msg : String)
  | badJson
  | apiError (data : Payload)
deriving DecidableEq, Repr

/-- Whether the fetch produced a validated payload. -/
def FetchOutcome.isOk : FetchOutcome → Bool
  | ok _ => true
  | _ => false

/-- The handler's possible responses, distinguishing the initial cache hit,
the degraded stale fallback, a fresh upstream payload, and a structured
error `(status, message)`. -/
inductive ProxyResult where
  | cacheHit (p : Payload)
  | fallback (p : Payload)
  | fresh (p : Payload)
  | err (code : Nat) (msg : String)
deriving DecidableEq, Repr

/-- `f'scores:{league}:{date}:{tz}'`. -/
def scoresKey (league dateComp tz : String) : String :=
  "scores:" ++ league ++ ":" ++ dateComp ++ ":" ++ tz

/-- Python's `str.lower()` (character-wise lowering). -/
def pyLower (s : String) : String := ⟨s.data.map Char.toLower⟩

/-- One stale-fallback attempt:
`if 'cached_response' in locals() and cached_response:` then serve it iff its
`date` field equals today's date, else return the structured error `e`.
(`cached_response` is always in `locals()` at these points: it is assigned
before the fetch.) -/
def tryFallback (cached_response : Option Payload) (today : String) (e : ProxyResult) :
    ProxyResult :=
  match cached_response with
  | some p => if p.date = today then .fallback p else e
  | none => e

/-- Everything after the initial cache check: dispatch on the fetch outcome;
on success cache and return the data, on failure try the stale fallback and
otherwise return the branch's structured error. -/
def proxyFetchStep (c : Cache) (cache_key : String) (cached_response : Option Payload)
    (now2 : Nat) (outcome : FetchOutcome) : ProxyResult × Cache :=
  let today2 := dateStr (now2 / 86400)
  match outcome with
  | .ok data => (.fresh data, set_cached_response c cache_key data now2)
  | .timeout =>
    (tryFallback cached_response today2 (.err 500 "API request timed out after 60 seconds"), c)
  | .requestError m =>
    (tryFallback cached_response today2 (.err 500 ("API request failed: " ++ m)), c)
  | .httpStatus code m =>
    (tryFallback cached_response today2 (.err (if code < 500 then code else 500) m), c)
  | .badJson =>
    (tryFallback cached_response today2 (.err 500 "Invalid JSON response from API"), c)
  | .apiError data =>
    (tryFallback cached_response today2 (.err 500 ("API returned error: " ++ data.date)), c)

/-- `proxy_scores(league, date)` with timezone `tz`: key normalization, initial
cache check (hit only if TTL-fresh via `get_cached_response` and the payload's
`date` equals today), then the fetch/fallback step. -/
def proxy_scores (c : Cache) (league date tz : String) (now1 now2 : Nat)
    (outcome : FetchOutcome) : ProxyResult × Cache :=
  let today1 := dateStr (now1 / 86400)
  let cache_key :=
    if pyLower date = "today" then scoresKey league today1 tz
    else scoresKey league date tz
  match get_cached_response c cache_key "scores" now1 with
  | some p =>
    if p.date = today1 then (.cacheHit p, c)
    else proxyFetchStep c cache_key (some p) now2 outcome
  | none => proxyFetchStep c cache_key none now2 outcome

/-! Injectivity of the cache key in its date component. -/

theorem scoresKey_date_inj (league tz d1 d2 : String)
    (h : scoresKey league d1 tz = scoresKey league d2 tz) : d1 = d2 := by
  have hdata := congrArg String.data h
  simp only [scoresKey, String.data_append, List.append_assoc] at hdata
  have h1 := List.append_cancel_left hdata
  have h2 := List.append_cancel_left h1
  have h3 := List.append_cancel_left h2
  have h4 := List.append_cancel_right h3
  exact String.ext h4

theorem get_eq_none_of_lookup_none (c : Cache) (k ct : String) (now : Nat)
    (h : lookupKey c k = none) : get_cached_response c k ct now = none := by
  simp [get_cached_response, h]

/-- C1: an entry put under the "today" cache key on calendar day D is a miss
for the same logical "today" request on day D+1, even when the elapsed time is
still under the 30-second scores TTL: the lookup key now embeds day D+1 and
differs from the stored key. -/
theorem today_entry_misses_after_midnight (league tz : String) (p : Payload) (t1 t2 : Nat)
    (hday : t2 / 86400 = t1 / 86400 + 1)
    (_hTTL : (t2 : Int) - (t1 : Int) < cache_ttl "scores") :
    get_cached_response
      (set_cached_response [] (scoresKey league (dateStr (t1 / 86400)) tz) p t1)
      (scoresKey league (dateStr (t2 / 86400)) tz) "scores" t2 = none := by
  have hkey : ¬ scoresKey league (dateStr (t1 / 86400)) tz
      = scoresKey league (dateStr (t2 / 86400)) tz := by
    intro h
    have hd := dateStr_injective (scoresKey_date_inj league tz _ _ h)
    omega
  have hset : set_cached_response [] (scoresKey league (dateStr (t1 / 86400)) tz) p t1
      = [⟨scoresKey league (dateStr (t1 / 86400)) tz, p, t1⟩] := by
    simp [set_cached_response, insertOrReplace_nil]
  rw [hset]
  exact get_eq_none_of_lookup_none _ _ _ _ (by rw [lookupKey_cons, if_neg hkey, lookupKey_nil])

theorem today_entry_misses_after_midnight_witness :
    (86410 / 86400 = 86390 / 86400 + 1)
    ∧ ((86410 : Int) - (86390 : Int) < cache_ttl "scores")
    ∧ get_cached_response
        (set_cached_response [] (scoresKey "nba" (dateStr (86390 / 86400)) "pst")
          ⟨"day0", 1⟩ 86390)
        (scoresKey "nba" (dateStr (86410 / 86400)) "pst") "scores" 86410 = none :=
  ⟨by decide, by decide,
   today_entry_misses_after_midnight "nba" "pst" ⟨"day0", 1⟩ 86390 86410
     (by decide) (by decide)⟩

/-! Reduction lemmas for `proxy_scores`, by case on the initial cache check. -/

theorem proxy_scores_of_get_none (c : Cache) (league date tz : String)
    (now1 now2 : Nat) (outcome : FetchOutcome)
    (hget : get_cached_response c
        (if pyLower date = "today" then scoresKey league (dateStr (now1 / 86400)) tz
         else scoresKey league date tz) "scores" now1 = none) :
    proxy_scores c league date tz now1 now2 outcome
      = proxyFetchStep c
          (if pyLower date = "today" then scoresKey league (dateStr (now1 / 86400)) tz
           else scoresKey league date tz) none now2 outcome := by
  simp only [proxy_scores, hget]

theorem proxy_scores_of_get_some (c : Cache) (league date tz : String)
    (now1 now2 : Nat) (outcome : FetchOutcome) (q : Payload)
    (hget : get_cached_response c
        (if pyLower date = "today" then scoresKey league (dateStr (now1 / 86400)) tz
         else scoresKey league date tz) "scores" now1 = some q) :
    proxy_scores c league date tz now1 now2 outcome
      = if q.date = dateStr (now1 / 86400) then (.cacheHit q, c)
        else proxyFetchStep c
          (if pyLower date = "today" then scoresKey league (dateStr (now1 / 86400)) tz
           else scoresKey league date tz) (some q) now2 outcome := by
  simp only [proxy_scores, hget]

theorem proxyFetchStep_fail_fst (c : Cache) (key : String) (cr : Option Payload)
    (now2 : Nat) (outcome : FetchOutcome) (h : outcome.isOk = false) :
    ∃ code msg, (proxyFetchStep c key cr now2 outcome).1
      = tryFallback cr (dateStr (now2 / 86400)) (.err code msg) := by
  cases outcome with
  | ok data => simp [FetchOutcome.isOk] at h
  | timeout => exact ⟨500, "API request timed out after 60 seconds", rfl⟩
  | requestError m => exact ⟨500, "API request failed: " ++ m, rfl⟩
  | httpStatus code m => exact ⟨if code < 500 then code else 500, m, rfl⟩
  | badJson => exact ⟨500, "Invalid JSON response from API", rfl⟩
  | apiError data => exact ⟨500, "API returned error: " ++ data.date, rfl⟩

theorem tryFallback_none (today : String) (e : ProxyResult) :
    tryFallback none today e = e := rfl

theorem tryFallback_some (p : Payload) (today : String) (e : ProxyResult) :
    tryFallback (some p) today e = if p.date = today then .fallback p else e := rfl

theorem proxyFetchStep_ok_fst (c : Cache) (key : String) (cr : Option Payload)
    (now2 : Nat) (data : Payload) :
    (proxyFetchStep c key cr now2 (.ok data)).1 = .fresh data := rfl

/-- C2 counterexample: a cache entry for the very key being requested, whose
embedded date equals the current UTC calendar date but whose 30-second TTL has
expired (age 100 s), is NOT served when the upstream fetch times out: the
handler returns the structured error, because the fallback reuses the result
of the TTL-governed initial `get_cached_response`, which already dropped the
entry. The claim predicts the entry would be returned. -/
theorem stale_fallback_counterexample :
    (cache_ttl "scores" ≤ (86500 : Int) - (86400 : Int))
    ∧ (Payload.mk (dateStr 1) 7).date = dateStr (86500 / 86400)
    ∧ (proxy_scores [⟨scoresKey "nba" (dateStr 1) "pst", ⟨dateStr 1, 7⟩, 86400⟩]
        "nba" "today" "pst" 86500 86500 .timeout).1
      = .err 500 "API request timed out after 60 seconds" := by
  refine ⟨by decide, by decide, ?_⟩
  decide

/-- C2 amended: on upstream failure, the cached payload is returned (as the
initial hit or as the degraded fallback) iff the TTL-governed
`get_cached_response` still returns the entry at the initial check AND its
embedded date equals the current UTC calendar date; in particular a
TTL-expired entry is never used as a fallback, and otherwise the structured
failure is propagated. -/
theorem fallback_requires_unexpired_today_entry (c : Cache) (league date tz : String)
    (now1 now2 : Nat) (outcome : FetchOutcome) (p : Payload)
    (hfail : outcome.isOk = false) (hsame : now1 / 86400 = now2 / 86400) :
    ((proxy_scores c league date tz now1 now2 outcome).1 = .cacheHit p ∨
     (proxy_scores c league date tz now1 now2 outcome).1 = .fallback p)
    ↔ (get_cached_response c
        (if pyLower date = "today" then scoresKey league (dateStr (now1 / 86400)) tz
         else scoresKey league date tz) "scores" now1 = some p
      ∧ p.date = dateStr (now1 / 86400)) := by
  cases hget : get_cached_response c
      (if pyLower date = "today" then scoresKey league (dateStr (now1 / 86400)) tz
       else scoresKey league date tz) "scores" now1 with
  | none =>
    rw [proxy_scores_of_get_none c league date tz now1 now2 outcome hget]
    obtain ⟨code, msg, hstep⟩ := proxyFetchStep_fail_fst c _ none now2 outcome hfail
    rw [hstep, tryFallback_none]
    simp
  | some q =>
    rw [proxy_scores_of_get_some c league date tz now1 now2 outcome q hget]
    by_cases hq : q.date = dateStr (now1 / 86400)
    · rw [if_pos hq]
      constructor
      · intro h
        rcases h with h | h
        · have := ProxyResult.cacheHit.inj h
          exact ⟨this ▸ rfl, this ▸ hq⟩
        · cases h
      · intro ⟨h1, _⟩
        exact Or.inl (congrArg ProxyResult.cacheHit (Option.some.inj h1))
    · rw [if_neg hq]
      obtain ⟨code, msg, hstep⟩ := proxyFetchStep_fail_fst c _ (some q) now2 outcome hfail
      rw [hstep, tryFallback_some]
      have hq2 : ¬ q.date = dateStr (now2 / 86400) := by
        rw [← hsame]
        exact hq
      rw [if_neg hq2]
      constructor
      · intro h
        rcases h with h | h <;> cases h
      · intro ⟨h1, h2⟩
        have := Option.some.inj h1
        exact absurd (this ▸ h2) hq

theorem fallback_requires_unexpired_today_entry_witness :
    (FetchOutcome.timeout.isOk = false) ∧ (86500 / 86400 = 86510 / 86400) ∧
    (((proxy_scores [] "nba" "today" "pst" 86500 86510 .timeout).1
        = .cacheHit ⟨"x", 0⟩ ∨
      (proxy_scores [] "nba" "today" "pst" 86500 86510 .timeout).1
        = .fallback ⟨"x", 0⟩)
    ↔ (get_cached_response []
        (if pyLower "today" = "today" then scoresKey "nba" (dateStr (86500 / 86400)) "pst"
         else scoresKey "nba" "today" "pst") "scores" 86500 = some ⟨"x", 0⟩
      ∧ (Payload.mk "x" 0).date = dateStr (86500 / 86400))) :=
  ⟨by decide, by decide,
   fallback_requires_unexpired_today_entry [] "nba" "today" "pst" 86500 86510 .timeout
     ⟨"x", 0⟩ (by decide) (by decide)⟩

/-- C10: when the UTC calendar date is the same at the initial cache check and
at the fallback re-checks, the handler can never return the degraded fallback
response: reaching the fetch means the initial check failed (no TTL-fresh
entry with today's date), and each fallback branch re-evaluates the same
condition on the same saved value, so it fails again. -/
theorem degraded_fallback_unreachable (c : Cache) (league date tz : String)
    (now1 now2 : Nat) (outcome : FetchOutcome) (p : Payload)
    (hsame : now1 / 86400 = now2 / 86400) :
    (proxy_scores c league date tz now1 now2 outcome).1 ≠ .fallback p := by
  cases hget : get_cached_response c
      (if pyLower date = "today" then scoresKey league (dateStr (now1 / 86400)) tz
       else scoresKey league date tz) "scores" now1 with
  | none =>
    rw [proxy_scores_of_get_none c league date tz now1 now2 outcome hget]
    cases houtcome : outcome.isOk with
    | true =>
      cases outcome with
      | ok data =>
        rw [proxyFetchStep_ok_fst]
        intro h
        cases h
      | timeout => simp [FetchOutcome.isOk] at houtcome
      | requestError m => simp [FetchOutcome.isOk] at houtcome
      | httpStatus code m => simp [FetchOutcome.isOk] at houtcome
      | badJson => simp [FetchOutcome.isOk] at houtcome
      | apiError data => simp [FetchOutcome.isOk] at houtcome
    | false =>
      obtain ⟨code, msg, hstep⟩ := proxyFetchStep_fail_fst c _ none now2 outcome houtcome
      rw [hstep, tryFallback_none]
      intro h
      cases h
  | some q =>
    rw [proxy_scores_of_get_some c league date tz now1 now2 outcome q hget]
    by_cases hq : q.date = dateStr (now1 / 86400)
    · rw [if_pos hq]
      intro h
      cases h
    · rw [if_neg hq]
      cases houtcome : outcome.isOk with
      | true =>
        cases outcome with
        | ok data =>
          rw [proxyFetchStep_ok_fst]
          intro h
          cases h
        | timeout => simp [FetchOutcome.isOk] at houtcome
        | requestError m => simp [FetchOutcome.isOk] at houtcome
        | httpStatus code m => simp [FetchOutcome.isOk] at houtcome
        | badJson => simp [FetchOutcome.isOk] at houtcome
        | apiError data => simp [FetchOutcome.isOk] at houtcome
      | false =>
        obtain ⟨code, msg, hstep⟩ := proxyFetchStep_fail_fst c _ (some q) now2 outcome houtcome
        rw [hstep, tryFallback_some]
        have hq2 : ¬ q.date = dateStr (now2 / 86400) := by
          rw [← hsame]
          exact hq
        rw [if_neg hq2]
        intro h
        cases h

theorem degraded_fallback_unreachable_witness :
    (86500 / 86400 = 86510 / 86400) ∧
    (proxy_scores [⟨scoresKey "nba" (dateStr 1) "pst", ⟨dateStr 0, 7⟩, 86490⟩]
        "nba" "today" "pst" 86500 86510 .timeout).1
      ≠ .fallback ⟨dateStr 0, 7⟩ :=
  ⟨by decide,
   degraded_fallback_unreachable [⟨scoresKey "nba" (dateStr 1) "pst", ⟨dateStr 0, 7⟩, 86490⟩]
     "nba" "today" "pst" 86500 86510 .timeout ⟨dateStr 0, 7⟩ (by decide)⟩

/-! ### The season-type classifier
(`nba_schedule_collector.py` lines 159-197, identical copy in
`nba-samples/nba_schedule_collector.py` lines 167-205)

`detect_season_type(date_obj, game_data)` reads only `date_obj.month`,
`date_obj.day` and the `gameType` / `isNBAcup` / `isAllStar` entries of the
optional `game_data` dict, so it is embedded as a function of those.
A present-but-empty dict is falsy in Python and skips the label checks; it
behaves exactly like the modelled `some` with no labels set, since every
label test then fails. -/

/-- The upstream labels `detect_season_type` inspects in `game_data`. -/
structure GameData where
  gameType : Option String
  isNBAcup : Bool
  isAllStar : Bool
deriving DecidableEq, Repr

/-- The month/day calendar dispatch of `detect_season_type` (the part after
the explicit-label checks). -/
def seasonByMonth (month day : Nat) : String × String :=
  if month = 10 then ("preseason", "Preseason")
  else if month = 11 ∨ month = 12 ∨ month = 1 ∨ month = 2 ∨ month = 3 ∨ month = 4 then
    if month = 2 ∧ 10 ≤ day ∧ day ≤ 20 then ("all_star_break", "All-Star Break")
    else if month = 11 ∨ month = 12 then ("nba_cup", "NBA Cup Period")
    else ("regular_season", "Regular Season")
  else if month = 5 ∨ month = 6 then ("playoffs", "Playoffs")
  else ("off_season", "Off Season")

/-- `NBAScheduleCollector.detect_season_type`: explicit upstream labels first,
then the month-based calendar default.  Returns `(season_type, description)`. -/
def detect_season_type (month day : Nat) (game_data : Option GameData) : String × String :=
  match game_data with
  | some g =>
    if g.gameType = some "tournament" ∨ g.isNBAcup then
      ("nba_cup", "NBA Cup (In-Season Tournament)")
    else if g.gameType = some "allstar" ∨ g.isAllStar then
      ("all_star_break", "All-Star Game")
    else seasonByMonth month day
  | none => seasonByMonth month day

theorem detect_season_type_none (month day : Nat) :
    detect_season_type month day none = seasonByMonth month day := rfl

theorem detect_season_type_some (month day : Nat) (g : GameData) :
    detect_season_type month day (some g)
      = if g.gameType = some "tournament" ∨ g.isNBAcup then
          ("nba_cup", "NBA Cup (In-Season Tournament)")
        else if g.gameType = some "allstar" ∨ g.isAllStar then
          ("all_star_break", "All-Star Game")
        else seasonByMonth month day := rfl

/-- No explicit upstream label is present (no tournament/all-star flag). -/
def noExplicitLabel : Option GameData → Prop
  | none => True
  | some g => g.gameType ≠ some "tournament" ∧ g.isNBAcup = false
      ∧ g.gameType ≠ some "allstar" ∧ g.isAllStar = false

/-- C5: an explicit upstream "tournament" label always classifies as
`nba_cup`, whatever the date; an unlabeled game in November or December is
`nba_cup` by the calendar default; an unlabeled game in the off-season window
(July-September) is `off_season`. -/
theorem season_classifier_priorities :
    (∀ (month day : Nat) (g : GameData), g.gameType = some "tournament" →
      (detect_season_type month day (some g)).1 = "nba_cup")
    ∧ (∀ (month day : Nat), month = 11 ∨ month = 12 →
      (detect_season_type month day none).1 = "nba_cup")
    ∧ (∀ (month day : Nat), month = 7 ∨ month = 8 ∨ month = 9 →
      (detect_season_type month day none).1 = "off_season") := by
  refine ⟨?_, ?_, ?_⟩
  · intro month day g hg
    simp [detect_season_type, hg]
  · intro month day h
    rcases h with h | h <;> subst h <;> simp [detect_season_type, seasonByMonth]
  · intro month day h
    rcases h with h | h | h <;> subst h <;> simp [detect_season_type, seasonByMonth]

theorem season_classifier_priorities_witness :
    ((GameData.mk (some "tournament") false false).gameType = some "tournament"
      ∧ (detect_season_type 7 15 (some ⟨some "tournament", false, false⟩)).1 = "nba_cup")
    ∧ ((11 = 11 ∨ 11 = 12) ∧ (detect_season_type 11 5 none).1 = "nba_cup")
    ∧ ((8 = 7 ∨ 8 = 8 ∨ 8 = 9) ∧ (detect_season_type 8 20 none).1 = "off_season") :=
  ⟨⟨rfl, season_classifier_priorities.1 7 15 ⟨some "tournament", false, false⟩ rfl⟩,
   ⟨Or.inl rfl, season_classifier_priorities.2.1 11 5 (Or.inl rfl)⟩,
   ⟨Or.inr (Or.inl rfl), season_classifier_priorities.2.2 8 20 (Or.inr (Or.inl rfl))⟩⟩

/-- C6: the classifier is total — for every month/day (any `Nat` at all, so in
particular every month 1-12) and any game data it returns one of the six
season types, never an error — and every case not settled by an explicit
label or one of the specific calendar windows (October; November-December;
February 10-20; May-June; July-September) falls back to `regular_season`, so
classification can never block a game from being stored. -/
theorem season_classifier_total :
    (∀ (month day : Nat) (gd : Option GameData),
      (detect_season_type month day gd).1
        ∈ ["preseason", "regular_season", "nba_cup", "all_star_break",
            "playoffs", "off_season"])
    ∧ (∀ (month day : Nat) (gd : Option GameData), noExplicitLabel gd →
      (month = 1 ∨ month = 3 ∨ month = 4 ∨ (month = 2 ∧ ¬(10 ≤ day ∧ day ≤ 20))) →
      (detect_season_type month day gd).1 = "regular_season") := by
  constructor
  · intro month day gd
    have hmonth : (seasonByMonth month day).1
        ∈ ["preseason", "regular_season", "nba_cup", "all_star_break",
            "playoffs", "off_season"] := by
      unfold seasonByMonth
      split_ifs <;> simp
    cases gd with
    | none => exact hmonth
    | some g =>
      rw [detect_season_type_some]
      split_ifs
      · simp
      · simp
      · exact hmonth
  · intro month day gd hlabel hmonth
    have hseason : (seasonByMonth month day).1 = "regular_season" := by
      rcases hmonth with h | h | h | ⟨h, hday⟩
      · subst h
        simp [seasonByMonth]
      · subst h
        simp [seasonByMonth]
      · subst h
        simp [seasonByMonth]
      · subst h
        simp [seasonByMonth, hday]
    cases gd with
    | none => exact hseason
    | some g =>
      obtain ⟨h1, h2, h3, h4⟩ := hlabel
      rw [detect_season_type_some, if_neg (by simp [h1, h2]), if_neg (by simp [h3, h4])]
      exact hseason

theorem season_classifier_total_witness :
    noExplicitLabel (some ⟨none, false, false⟩)
    ∧ (3 = 1 ∨ 3 = 3 ∨ 3 = 4 ∨ (3 = 2 ∧ ¬(10 ≤ (9:Nat) ∧ (9:Nat) ≤ 20)))
    ∧ (detect_season_type 3 9 (some ⟨none, false, false⟩)).1 = "regular_season" :=
  ⟨by simp [noExplicitLabel], by tauto,
   season_classifier_total.2 3 9 (some ⟨none, false, false⟩)
     (by simp [noExplicitLabel]) (by tauto)⟩

/-! ### The persistent game store (`nba-samples/cache_manager.py` lines 132-198,
`CacheManager.cache_games`)

The `games` SQLite table has primary key `id`; rows are modelled as a list in
insertion order.  `INSERT OR REPLACE` deletes any existing row with the same
`id` and appends the new one.  `cache_games` first runs
`DELETE FROM games WHERE sport = ? AND game_date = ?`, then maps each incoming
game dict to a row and upserts it.  Python falsy-`or` chains over `.get(...)`
are modelled by `pyOr` (an empty string is falsy); `.get(key, default)` by
`Option.getD`.  The `json.dumps(...)` serializations of the nested
`series_info` / `periodDescriptor` / `clock` dicts are carried as the opaque
strings the game dict already determines. -/

/-- Python `a or b` for values where only `None` and `''` are falsy. -/
def pyOr : Option String → String → String
  | some s, d => if s = "" then d else s
  | none, d => d

/-- The nested `homeTeam` / `awayTeam` objects of an NBA game dict
(fields read via `.get('teamCity', '')` etc.). -/
structure TeamObj where
  teamCity : Option String
  teamName : Option String
  score : Option Int
deriving DecidableEq, Repr

/-- The fields of an incoming game dict that `cache_games` reads. -/
structure Game where
  homeTeam : Option TeamObj
  awayTeam : Option TeamObj
  gameStatusText : Option String
  gameTimeEst : Option String
  gameId : Option String
  home_team : Option String
  home_name : Option String
  home : Option String
  away_team : Option String
  away_name : Option String
  away : Option String
  home_score : Option Int
  away_score : Option Int
  status : Option String
  game_time : Option String
  game_datetime : Option String
  idField : Option String
  game_id : Option String
  period : Option String
  season_type : Option String
  week : Option Int
  series_info : String
  current_inning : Option String
  inning_state : Option String
  periodDescriptor : String
  clock : String
deriving DecidableEq, Repr

/-- One row of the `games` table (primary key `id`). -/
structure GameRow where
  id : String
  sport : String
  game_date : String
  home_team : String
  away_team : String
  home_score : Int
  away_score : Int
  status : String
  period : String
  game_time : String
  season_type : String
  week : Int
  series_info : String
  current_inning : Option String
  inning_state : Option String
  period_descriptor : String
  clock_info : String
  updated_at : Nat
deriving DecidableEq, Repr

/-- Python `f"{city} {name}".strip()`. -/
def teamDisplay (t : TeamObj) : String :=
  ((t.teamCity.getD "") ++ " " ++ (t.teamName.getD "")).trim

/-- The per-game field mapping of `cache_games`: the NBA branch reads the
nested team objects, every other sport reads flat fields through falsy-`or`
chains; both synthesize a fallback id `f"{sport}_{game_date}_{home}_{away}"`. -/
def mkRow (sport game_date : String) (now : Nat) (game : Game) : GameRow :=
  if pyLower sport = "nba" then
    let home_team := teamDisplay (game.homeTeam.getD ⟨none, none, none⟩)
    let away_team := teamDisplay (game.awayTeam.getD ⟨none, none, none⟩)
    { id := game.gameId.getD (sport ++ "_" ++ game_date ++ "_" ++ home_team ++ "_" ++ away_team)
      sport := sport
      game_date := game_date
      home_team := home_team
      away_team := away_team
      home_score := ((game.homeTeam.getD ⟨none, none, none⟩).score).getD 0
      away_score := ((game.awayTeam.getD ⟨none, none, none⟩).score).getD 0
      status := game.gameStatusText.getD "scheduled"
      period := game.period.getD ""
      game_time := game.gameTimeEst.getD ""
      season_type := game.season_type.getD ""
      week := game.week.getD 0
      series_info := game.series_info
      current_inning := game.current_inning
      inning_state := game.inning_state
      period_descriptor := game.periodDescriptor
      clock_info := game.clock
      updated_at := now }
  else
    let home_team := pyOr game.home_team (pyOr game.home_name (pyOr game.home ""))
    let away_team := pyOr game.away_team (pyOr game.away_name (pyOr game.away ""))
    { id := pyOr game.idField (pyOr game.game_id
        (sport ++ "_" ++ game_date ++ "_" ++ home_team ++ "_" ++ away_team))
      sport := sport
      game_date := game_date
      home_team := home_team
      away_team := away_team
      home_score := game.home_score.getD 0
      away_score := game.away_score.getD 0
      status := game.status.getD "scheduled"
      period := game.period.getD ""
      game_time := pyOr game.game_time (game.game_datetime.getD "")
      season_type := game.season_type.getD ""
      week := game.week.getD 0
      series_info := game.series_info
      current_inning := game.current_inning
      inning_state := game.inning_state
      period_descriptor := game.periodDescriptor
      clock_info := game.clock
      updated_at := now }

/-- `INSERT OR REPLACE INTO games`: drop any row with the same primary key,
then insert. -/
def insertOrReplaceRow (table : List GameRow) (r : GameRow) : List GameRow :=
  table.filter (fun x => !(x.id == r.id)) ++ [r]

/-- `CacheManager.cache_games(sport, games, game_date)` run at instant `now`
against table state `table`: delete all rows for `(sport, game_date)`, then
upsert the mapped rows one by one. -/
def cache_games (table : List GameRow) (sport : String) (games : List Game)
    (game_date : String) (now : Nat) : List GameRow :=
  let cleared := table.filter (fun r => !(r.sport == sport && r.game_date == game_date))
  games.foldl (fun acc g => insertOrReplaceRow acc (mkRow sport game_date now g)) cleared

/-- The rows a call `cache_games(sport, games, game_date)` derives from
`games` alone (the upsert fold started from an empty table). -/
def derivedRows (sport game_date : String) (now : Nat) (games : List Game) :
    List GameRow :=
  games.foldl (fun acc g => insertOrReplaceRow acc (mkRow sport game_date now g)) []

theorem mkRow_sport (sport game_date : String) (now : Nat) (game : Game) :
    (mkRow sport game_date now game).sport = sport := by
  unfold mkRow
  split <;> rfl

theorem mkRow_game_date (sport game_date : String) (now : Nat) (game : Game) :
    (mkRow sport game_date now game).game_date = game_date := by
  unfold mkRow
  split <;> rfl

theorem filter_insertOrReplaceRow (p : GameRow → Bool) (table : List GameRow)
    (r : GameRow) (hp : p r = true) :
    (insertOrReplaceRow table r).filter p = insertOrReplaceRow (table.filter p) r := by
  unfold insertOrReplaceRow
  rw [List.filter_append, List.filter_filter, List.filter_filter]
  have hsingle : List.filter p [r] = [r] := by simp [hp]
  rw [hsingle]
  congr 1
  apply List.filter_congr
  intro x _
  rw [Bool.and_comm]

theorem filter_foldl_upsert (p : GameRow → Bool) (sport game_date : String) (now : Nat)
    (games : List Game) (t0 : List GameRow)
    (hp : ∀ g : Game, p (mkRow sport game_date now g) = true) :
    (games.foldl (fun acc g => insertOrReplaceRow acc (mkRow sport game_date now g)) t0).filter p
      = games.foldl (fun acc g => insertOrReplaceRow acc (mkRow sport game_date now g))
          (t0.filter p) := by
  induction games generalizing t0 with
  | nil => rfl
  | cons g rest ih =>
    simp only [List.foldl_cons]
    rw [ih, filter_insertOrReplaceRow p t0 _ (hp g)]

/-- C4: two successive `cache_games` calls for the same `(sport, game_date)`
leave the table containing, for that sport and date, exactly the rows derived
from the second game set — a full replace, with no leftovers from the first
set (the result does not depend on `A` or on the prior table at all). -/
theorem cache_games_full_replace (table : List GameRow) (sport game_date : String)
    (A B : List Game) (n1 n2 : Nat) :
    ((cache_games (cache_games table sport A game_date n1) sport B game_date n2).filter
        (fun r => r.sport == sport && r.game_date == game_date))
      = derivedRows sport game_date n2 B := by
  have hp : ∀ g : Game,
      (fun r : GameRow => r.sport == sport && r.game_date == game_date)
        (mkRow sport game_date n2 g) = true := by
    intro g
    simp [mkRow_sport, mkRow_game_date]
  unfold cache_games derivedRows
  rw [filter_foldl_upsert _ sport game_date n2 B _ hp]
  congr 1
  rw [List.filter_filter]
  apply List.filter_eq_nil_iff.mpr
  intro r _
  cases hs : (r.sport == sport && r.game_date == game_date) <;> simp [hs]

/-! ### The cache warmer (`warm_cache.py`, `warm_cache`)

The sweep is driven by the current UTC hour and minute; each fetch is one
`requests.get` whose observable result is modelled by `respond`, mapping the
requested URL to an HTTP status or a raised exception.  The function returns
the ordered list of URLs actually requested and the final
`error_count == 0` success flag. -/

/-- `LEAGUES = ['nba', 'nhl', 'nfl', 'mlb', 'mls', 'wnba']`. -/
def LEAGUES : List String := ["nba", "nhl", "nfl", "mlb", "mls", "wnba"]

/-- `TIMEZONES = ['pst', 'est', 'cst', 'mst']`. -/
def TIMEZONES : List String := ["pst", "est", "cst", "mst"]

/-- Default `BASE_URL` (dev port) from `warm_cache.py`. -/
def BASE_URL : String := "http://localhost:34181"

/-- Result of one `requests.get(url, timeout=30)` in the warmer: an HTTP
status, or an exception (connection error, timeout, ...). -/
inductive WarmFetchResult where
  | status (code : Nat)
  | exn (msg : String)
deriving DecidableEq, Repr

/-- `f"{BASE_URL}/api/proxy/scores/{league}/today?tz={tz}"`. -/
def warmScoresUrl (league tz : String) : String :=
  BASE_URL ++ "/api/proxy/scores/" ++ league ++ "/today?tz=" ++ tz

/-- `f"{BASE_URL}/api/proxy/schedule/{league}/today?tz={tz}"`. -/
def warmScheduleUrl (league tz : String) : String :=
  BASE_URL ++ "/api/proxy/schedule/" ++ league ++ "/today?tz=" ++ tz

/-- `is_game_hours = (current_hour >= 18) or (current_hour < 2)`. -/
def is_game_hours (hour : Nat) : Bool := decide (18 ≤ hour) || decide (hour < 2)

/-- URLs of one sweep, in request order: scores before schedule per pair
during game hours, schedule before scores during off hours. -/
def sweepUrls (gameHours : Bool) : List String :=
  LEAGUES.flatMap (fun league =>
    TIMEZONES.flatMap (fun tz =>
      if gameHours then [warmScoresUrl league tz, warmScheduleUrl league tz]
      else [warmScheduleUrl league tz, warmScoresUrl league tz]))

/-- `warm_cache()` at UTC time `(hour, minute)`: skip entirely (successfully)
during off hours when the minute is not a multiple of 5; otherwise perform
every fetch of the sweep, counting successes (HTTP 200) and errors (any other
status, or an exception), and report `error_count == 0`.  Returns the
requested URLs and the success flag. -/
def warm_cache (hour minute : Nat) (respond : String → WarmFetchResult) :
    List String × Bool :=
  let gameHours := is_game_hours hour
  if !gameHours && decide (minute % 5 ≠ 0) then ([], true)
  else
    let urls := sweepUrls gameHours
    let counts := urls.foldl
      (fun (se : Nat × Nat) u =>
        match respond u with
        | .status 200 => (se.1 + 1, se.2)
        | .status _ => (se.1, se.2 + 1)
        | .exn _ => (se.1, se.2 + 1))
      (0, 0)
    (urls, counts.2 == 0)

/-- C9: a warmer invocation during off hours (the UTC hour is outside
[18:00, 02:00)) at a minute that is not a multiple of 5 performs zero
upstream calls and reports success. -/
theorem warmer_offhours_skip (hour minute : Nat) (respond : String → WarmFetchResult)
    (hoff : is_game_hours hour = false) (hmin : minute % 5 ≠ 0) :
    warm_cache hour minute respond = ([], true) := by
  unfold warm_cache
  rw [hoff]
  simp [hmin]

theorem warmer_offhours_skip_witness :
    (is_game_hours 10 = false) ∧ (7 % 5 ≠ 0) ∧
    warm_cache 10 7 (fun _ => .status 200) = ([], true) :=
  ⟨by decide, by decide, warmer_offhours_skip 10 7 (fun _ => .status 200)
    (by decide) (by decide)⟩

end Sportspuff
